import Mathlib

/-!
Verification of the StoryFlow browser client (a two-stage LLM storyboard
generator) against its natural-language specification.

The development shallowly embeds the program:

* `src/services/geminiService.ts` — the generation client
  (`generateStoryDraft`, `generateScenesFromStory`): async functions become
  pure functions over an explicit `ApiResponse` describing the endpoint's
  outcome; thrown errors become an `Except GenError` result.
* `src/App.tsx` — the view/state controller: React `useState` fields become a
  `ControllerState` record; each handler becomes a function from the state
  (and, for async handlers, the eventual result of the in-flight call) to the
  final state once the handler has run to completion.
* `JSON.parse` / `JSON.stringify(·, null, 2)` — the platform JSON codec is
  modelled by an executable character-level parser and pretty-printer over a
  `Json` value type.  JSON numbers are modelled as exact rationals (the
  double-precision rounding of JavaScript numbers is outside the model);
  JavaScript strings that are not well-formed Unicode (lone surrogates) are
  not representable as Lean strings, so a lone surrogate escape decodes to
  U+FFFD in the model.

Numeric JS values (durations, counters) are modelled as `ℚ`/`Int`.
-/

/-! ### Characters and low-level string helpers -/

/-- The double-quote character. -/
def qmarkC : Char := Char.ofNat 34

/-- The backslash character. -/
def bslashC : Char := Char.ofNat 92

/-- The opening-brace character. -/
def lbraceC : Char := Char.ofNat 123

/-- The closing-brace character. -/
def rbraceC : Char := Char.ofNat 125

/-- The opening-bracket character. -/
def lbrackC : Char := Char.ofNat 91

/-- The closing-bracket character. -/
def rbrackC : Char := Char.ofNat 93

/-- The comma character. -/
def commaC : Char := Char.ofNat 44

/-- The colon character. -/
def colonC : Char := Char.ofNat 58

/-- The space character. -/
def spaceC : Char := Char.ofNat 32

/-- The newline character. -/
def nlC : Char := Char.ofNat 10

/-- The full-stop character. -/
def dotC : Char := Char.ofNat 46

/-- The minus-sign character. -/
def minusC : Char := Char.ofNat 45

/-- The Unicode replacement character U+FFFD. -/
def fffdC : Char := Char.ofNat 65533

/-- JSON whitespace: space, horizontal tab, line feed, carriage return. -/
def isWsC (c : Char) : Bool :=
  c = spaceC || c = Char.ofNat 9 || c = nlC || c = Char.ofNat 13

/-- ASCII decimal digit test. -/
def isDigitC (c : Char) : Bool := 48 ≤ c.toNat && c.toNat ≤ 57

/-- Drop leading JSON whitespace. -/
def skipWs : List Char → List Char
  | [] => []
  | c :: cs => if isWsC c then skipWs cs else c :: cs

/-- Is `pat` a prefix of `s`? -/
def isPrefixB : List Char → List Char → Bool
  | [], _ => true
  | a :: as, s =>
    match s with
    | [] => false
    | b :: bs => a = b && isPrefixB as bs

/-- Does `s` contain `pat` as a contiguous run?  Models
`String.prototype.includes` at the character-list level. -/
def hasSub (pat : List Char) : List Char → Bool
  | [] => isPrefixB pat []
  | c :: t => isPrefixB pat (c :: t) || hasSub pat t

/-- Model of JavaScript `message.includes(sub)`. -/
def includesStr (s sub : String) : Bool := hasSub sub.data s.data

/-- Model of JavaScript `message.toLowerCase()` (ASCII-adequate). -/
def toLowerStr (s : String) : String := String.mk (s.data.map Char.toLower)

/-- Model of JavaScript `s.trim()`: strip whitespace from both ends. -/
def jsTrim (s : String) : String :=
  String.mk ((List.dropWhile (fun c => isWsC c)
    ((List.dropWhile (fun c => isWsC c) s.data).reverse)).reverse)

/-- UTF-16 code-unit count of one character (JS string indexing unit). -/
def charU16 (c : Char) : Nat := if c.toNat < 65536 then 1 else 2

/-- Model of JavaScript `s.length` (UTF-16 code units). -/
def utf16Length (s : String) : Nat := (s.data.map charU16).sum

/-- Take at most `n` UTF-16 code units worth of characters. -/
def takeU16 : Nat → List Char → List Char
  | _, [] => []
  | n, c :: cs => if charU16 c ≤ n then c :: takeU16 (n - charU16 c) cs else []

/-- Model of JavaScript `s.slice(0, n)` (a char straddling the cut is dropped
whole, since a lone surrogate is not a Lean `Char`). -/
def sliceU16 (n : Nat) (s : String) : String := String.mk (takeU16 n s.data)

/-! ### Decimal digits -/

/-- The digit character for `n < 10`. -/
def digitChar (n : Nat) : Char := Char.ofNat (48 + n)

/-- Decimal digit characters of `n`, most significant first. -/
def natToDigits (n : Nat) : List Char :=
  if _h : n < 10 then [digitChar n]
  else natToDigits (n / 10) ++ [digitChar (n % 10)]
termination_by n
decreasing_by omega

/-- Value of a run of decimal digit characters. -/
def digitsVal (ds : List Char) : Nat :=
  ds.foldl (fun a c => a * 10 + (c.toNat - 48)) 0

/-- Characters of an integer: optional minus sign, then digits. -/
def intToChars (i : Int) : List Char :=
  if i < 0 then minusC :: natToDigits i.natAbs else natToDigits i.natAbs

/-- Maximal digit run at the head of the input, plus the remainder. -/
def takeDigits : List Char → List Char × List Char
  | [] => ([], [])
  | c :: cs =>
    if isDigitC c then
      let p := takeDigits cs
      (c :: p.1, p.2)
    else ([], c :: cs)

/-! ### Hexadecimal -/

/-- Lowercase hex digit character for `n < 16`. -/
def hexDigitChar (n : Nat) : Char :=
  if n < 10 then Char.ofNat (48 + n) else Char.ofNat (87 + n)

/-- Value of one hex digit character (either case). -/
def hexValC (c : Char) : Option Nat :=
  if 48 ≤ c.toNat && c.toNat ≤ 57 then some (c.toNat - 48)
  else if 97 ≤ c.toNat && c.toNat ≤ 102 then some (c.toNat - 87)
  else if 65 ≤ c.toNat && c.toNat ≤ 70 then some (c.toNat - 55)
  else none

/-- Value of four hex digit characters. -/
def hex4 (a b c d : Char) : Option Nat := do
  let va ← hexValC a
  let vb ← hexValC b
  let vc ← hexValC c
  let vd ← hexValC d
  return ((va * 16 + vb) * 16 + vc) * 16 + vd

/-! ### The JSON value type -/

/-- A JSON value.  Numbers are exact rationals (see the module comment). -/
inductive Json where
  | null
  | bool (b : Bool)
  | num (q : ℚ)
  | str (s : String)
  | arr (elems : List Json)
  | obj (members : List (String × Json))

/-! ### The JSON parser (model of `JSON.parse`)

Structural on a fuel counter; `parseJson` supplies fuel `3 * n + 3` for an
input of `n` characters, which dominates the parser's frame count (at most
three frames are entered per consumed character). -/

/-- Decode a `\uXXXX` escape (four hex chars, possibly followed by a low
surrogate escape).  A lone surrogate decodes to U+FFFD. -/
def parseU : List Char → Option (Char × List Char)
  | a :: b :: c :: d :: rest =>
    match hex4 a b c d with
    | none => none
    | some n =>
      if 55296 ≤ n ∧ n ≤ 56319 then
        match rest with
        | e1 :: e2 :: a2 :: b2 :: c2 :: d2 :: rest2 =>
          if e1 = bslashC ∧ e2 = 'u' then
            match hex4 a2 b2 c2 d2 with
            | none => some (fffdC, rest)
            | some m =>
              if 56320 ≤ m ∧ m ≤ 57343 then
                some (Char.ofNat (65536 + (n - 55296) * 1024 + (m - 56320)), rest2)
              else some (fffdC, rest)
          else some (fffdC, rest)
        | _ => some (fffdC, rest)
      else if 56320 ≤ n ∧ n ≤ 57343 then some (fffdC, rest)
      else some (Char.ofNat n, rest)
  | _ => none

/-- String-body scanner (after the opening quote), structural on fuel. -/
def psbGo : Nat → List Char → Option (List Char × List Char)
  | 0, _ => none
  | _ + 1, [] => none
  | f + 1, c :: cs =>
    if c = qmarkC then some ([], cs)
    else if c = bslashC then
      match cs with
      | [] => none
      | e :: cs2 =>
        if e = qmarkC then (psbGo f cs2).map (fun p => (qmarkC :: p.1, p.2))
        else if e = bslashC then (psbGo f cs2).map (fun p => (bslashC :: p.1, p.2))
        else if e = '/' then (psbGo f cs2).map (fun p => ('/' :: p.1, p.2))
        else if e = 'b' then (psbGo f cs2).map (fun p => (Char.ofNat 8 :: p.1, p.2))
        else if e = 'f' then (psbGo f cs2).map (fun p => (Char.ofNat 12 :: p.1, p.2))
        else if e = 'n' then (psbGo f cs2).map (fun p => (nlC :: p.1, p.2))
        else if e = 'r' then (psbGo f cs2).map (fun p => (Char.ofNat 13 :: p.1, p.2))
        else if e = 't' then (psbGo f cs2).map (fun p => (Char.ofNat 9 :: p.1, p.2))
        else if e = 'u' then
          match parseU cs2 with
          | none => none
          | some (ch, cs3) => (psbGo f cs3).map (fun p => (ch :: p.1, p.2))
        else none
    else if c.toNat < 32 then none
    else (psbGo f cs).map (fun p => (c :: p.1, p.2))

/-- Scan a string body; fuel one more than the input length always suffices. -/
def parseStringBody (cs : List Char) : Option (List Char × List Char) :=
  psbGo (cs.length + 1) cs

/-- Split a leading minus sign off the input. -/
def splitSign : List Char → Bool × List Char
  | [] => (false, [])
  | c :: cs => if c = minusC then (true, cs) else (false, c :: cs)

/-- Optional fraction part: `.` followed by one-or-more digits, or nothing. -/
def parseFracPart : List Char → Option (List Char × List Char)
  | [] => some ([], [])
  | c :: cs =>
    if c = dotC then
      match takeDigits cs with
      | ([], _) => none
      | (ds, r) => some (ds, r)
    else some ([], c :: cs)

/-- Optional exponent part: `e|E`, optional sign, one-or-more digits. -/
def parseExpPart : List Char → Option ((Bool × List Char) × List Char)
  | [] => some ((false, []), [])
  | c :: cs =>
    if c = 'e' || c = 'E' then
      let sg : Bool × List Char :=
        match cs with
        | [] => (false, [])
        | s :: cs2 => if s = minusC then (true, cs2)
                      else if s = '+' then (false, cs2) else (false, s :: cs2)
      match takeDigits sg.2 with
      | ([], _) => none
      | (ds, r) => some ((sg.1, ds), r)
    else some ((false, []), c :: cs)

/-- Parse a JSON number (RFC 8259 grammar) as an exact rational. -/
def parseNumber (cs : List Char) : Option (ℚ × List Char) :=
  let sn := splitSign cs
  match takeDigits sn.2 with
  | ([], _) => none
  | (ds, cs2) =>
    if 2 ≤ ds.length ∧ ds.head? = some (digitChar 0) then none
    else
      match parseFracPart cs2 with
      | none => none
      | some (fds, cs3) =>
        match parseExpPart cs3 with
        | none => none
        | some ((eneg, eds), cs4) =>
          let mant : ℚ := (digitsVal (ds ++ fds) : ℚ) / ((10 : ℚ) ^ fds.length)
          let mant : ℚ := if sn.1 then -mant else mant
          let q : ℚ :=
            if eds.isEmpty then mant
            else if eneg then mant / ((10 : ℚ) ^ digitsVal eds)
            else mant * ((10 : ℚ) ^ digitsVal eds)
          some (q, cs4)

mutual

/-- Parse one JSON value (leading whitespace allowed). -/
def parseValue : Nat → List Char → Option (Json × List Char)
  | 0, _ => none
  | f + 1, cs0 =>
    match skipWs cs0 with
    | [] => none
    | c :: rest =>
      if c = qmarkC then
        match parseStringBody rest with
        | some (chars, r) => some (.str (String.mk chars), r)
        | none => none
      else if c = lbrackC then
        match parseItems f rest with
        | some (l, r) => some (.arr l, r)
        | none => none
      else if c = lbraceC then
        match parseMembers f rest with
        | some (l, r) => some (.obj l, r)
        | none => none
      else if c = 't' then
        match rest with
        | c1 :: c2 :: c3 :: r =>
          if c1 = 'r' ∧ c2 = 'u' ∧ c3 = 'e' then some (.bool true, r) else none
        | _ => none
      else if c = 'f' then
        match rest with
        | c1 :: c2 :: c3 :: c4 :: r =>
          if c1 = 'a' ∧ c2 = 'l' ∧ c3 = 's' ∧ c4 = 'e' then some (.bool false, r) else none
        | _ => none
      else if c = 'n' then
        match rest with
        | c1 :: c2 :: c3 :: r =>
          if c1 = 'u' ∧ c2 = 'l' ∧ c3 = 'l' then some (.null, r) else none
        | _ => none
      else if c = minusC || isDigitC c then
        match parseNumber (c :: rest) with
        | some (q, r) => some (.num q, r)
        | none => none
      else none

/-- Parse array contents after the opening bracket. -/
def parseItems : Nat → List Char → Option (List Json × List Char)
  | 0, _ => none
  | f + 1, cs =>
    match skipWs cs with
    | [] => none
    | c :: rest => if c = rbrackC then some ([], rest) else parseItemsNE f (c :: rest)

/-- Parse one-or-more comma-separated array elements and the closing bracket. -/
def parseItemsNE : Nat → List Char → Option (List Json × List Char)
  | 0, _ => none
  | f + 1, cs =>
    match parseValue f cs with
    | none => none
    | some (v, cs1) =>
      match skipWs cs1 with
      | [] => none
      | c :: rest =>
        if c = commaC then
          match parseItemsNE f rest with
          | some (vs, r) => some (v :: vs, r)
          | none => none
        else if c = rbrackC then some ([v], rest)
        else none

/-- Parse object contents after the opening brace. -/
def parseMembers : Nat → List Char → Option (List (String × Json) × List Char)
  | 0, _ => none
  | f + 1, cs =>
    match skipWs cs with
    | [] => none
    | c :: rest => if c = rbraceC then some ([], rest) else parseMembersNE f (c :: rest)

/-- Parse one-or-more comma-separated object members and the closing brace. -/
def parseMembersNE : Nat → List Char → Option (List (String × Json) × List Char)
  | 0, _ => none
  | f + 1, cs =>
    match skipWs cs with
    | [] => none
    | c :: rest =>
      if c = qmarkC then
        match parseStringBody rest with
        | none => none
        | some (kcs, cs1) =>
          match skipWs cs1 with
          | [] => none
          | c2 :: cs2 =>
            if c2 = colonC then
              match parseValue f cs2 with
              | none => none
              | some (v, cs3) =>
                match skipWs cs3 with
                | [] => none
                | c3 :: cs4 =>
                  if c3 = commaC then
                    match parseMembersNE f cs4 with
                    | some (ms, r) => some ((String.mk kcs, v) :: ms, r)
                    | none => none
                  else if c3 = rbraceC then some ([(String.mk kcs, v)], cs4)
                  else none
            else none
      else none

end

/-- Model of `JSON.parse`: whole-input parse, trailing whitespace allowed. -/
def parseJson (s : String) : Option Json :=
  match parseValue (3 * s.data.length + 3) s.data with
  | some (v, rest) => if skipWs rest = [] then some v else none
  | none => none

/-! ### The JSON pretty-printer (model of `JSON.stringify(·, null, 2)`) -/

/-- Indentation: `n` spaces. -/
def sp (n : Nat) : List Char := List.replicate n spaceC

/-- Escape one character as `JSON.stringify` quoting does. -/
def quoteChar (c : Char) : List Char :=
  if c = qmarkC then [bslashC, qmarkC]
  else if c = bslashC then [bslashC, bslashC]
  else if c = Char.ofNat 8 then [bslashC, 'b']
  else if c = Char.ofNat 9 then [bslashC, 't']
  else if c = nlC then [bslashC, 'n']
  else if c = Char.ofNat 12 then [bslashC, 'f']
  else if c = Char.ofNat 13 then [bslashC, 'r']
  else if c.toNat < 32 then
    [bslashC, 'u', digitChar 0, digitChar 0,
     hexDigitChar (c.toNat / 16), hexDigitChar (c.toNat % 16)]
  else [c]

/-- Escape a whole string body. -/
def qencode : List Char → List Char
  | [] => []
  | c :: cs => quoteChar c ++ qencode cs

mutual

/-- Pretty-print one value at indentation `ind` (gap of two spaces). -/
def printV : Nat → Json → List Char
  | _, .null => ['n', 'u', 'l', 'l']
  | _, .bool true => ['t', 'r', 'u', 'e']
  | _, .bool false => ['f', 'a', 'l', 's', 'e']
  | _, .num q => intToChars q.num
  | _, .str s => qmarkC :: (qencode s.data ++ [qmarkC])
  | _, .arr [] => [lbrackC, rbrackC]
  | ind, .arr (x :: xs) =>
    lbrackC :: nlC :: (sp (ind + 2) ++ printV (ind + 2) x
      ++ printItemsRest (ind + 2) xs ++ nlC :: (sp ind ++ [rbrackC]))
  | _, .obj [] => [lbraceC, rbraceC]
  | ind, .obj (m :: ms) =>
    lbraceC :: nlC :: (sp (ind + 2) ++ printMember (ind + 2) m
      ++ printMembersRest (ind + 2) ms ++ nlC :: (sp ind ++ [rbraceC]))

/-- Print `",\n<indent><elem>"` for each further array element. -/
def printItemsRest : Nat → List Json → List Char
  | _, [] => []
  | ind, x :: xs => commaC :: nlC :: (sp ind ++ printV ind x ++ printItemsRest ind xs)

/-- Print one `"key": value` member. -/
def printMember : Nat → String × Json → List Char
  | ind, (k, v) => qmarkC :: (qencode k.data ++ qmarkC :: colonC :: spaceC :: printV ind v)

/-- Print `",\n<indent><member>"` for each further object member. -/
def printMembersRest : Nat → List (String × Json) → List Char
  | _, [] => []
  | ind, m :: ms => commaC :: nlC :: (sp ind ++ printMember ind m ++ printMembersRest ind ms)

end

mutual

/-- Do all numbers in a value have denominator one (serialize as integers)? -/
def intNums : Json → Bool
  | .null => true
  | .bool _ => true
  | .num q => q.den == 1
  | .str _ => true
  | .arr l => intNumsList l
  | .obj l => intNumsMembers l

def intNumsList : List Json → Bool
  | [] => true
  | x :: xs => intNums x && intNumsList xs

def intNumsMembers : List (String × Json) → Bool
  | [] => true
  | m :: ms => intNums m.2 && intNumsMembers ms

end

/-! ### Domain data model (`src/types.ts`) -/

/-- One storyboard scene (`interface Scene` in `src/types.ts`).  JS `number`
fields are modelled as `Int` (the generation schema declares them INTEGER). -/
structure Scene where
  scene_number : Int
  duration_seconds : Int
  setting_description : String
  character_appearance : String
  action_description : String
  dialogue : String
  camera_angle : String
  lighting : String
  mood : String
  deriving DecidableEq

/-- A signed-in user (`interface User`). -/
structure User where
  email : String
  name : String
  avatar : String
  deriving DecidableEq

/-- The `role` field of `UserStats` (`'user' | 'admin'`). -/
inductive Role where
  | user
  | admin
  deriving DecidableEq

/-- One activity-tracking record (`interface UserStats`). -/
structure UserStats where
  id : String
  email : String
  name : String
  avatar : String
  storiesGenerated : Int
  totalScenesGenerated : Int
  lastActive : String
  role : Role
  deriving DecidableEq

/-- The view stages (`enum AppState`). -/
inductive AppState where
  | login
  | input
  | generatingStory
  | storyReview
  | generatingScenes
  | results
  | adminLogin
  | adminDashboard
  deriving DecidableEq

/-! ### Generation client (`src/services/geminiService.ts`)

The async functions are embedded as pure functions.  The configured
credential (`process.env.API_KEY`, a JS `string | undefined`) is an explicit
`Option String` argument; the endpoint's outcome (`ai.models.generateContent`
either rejecting, or resolving with `response.text : string | undefined`) is
an explicit `ApiResponse` argument.  A thrown error is an `Except.error`; the
`catch` blocks only log and rethrow, so errors pass through unmodified.
Prompt/`systemInstruction` text is not modelled: it flows only to the opaque
endpoint and does not affect any control flow being verified. -/

/-- Classified errors raised by the generation client.  `provider` is a
transport/provider rejection propagated unmodified. -/
inductive GenError where
  | missingCredential
  | emptyResult (msg : String)
  | decodeError (msg : String)
  | provider (msg : String)
  deriving DecidableEq

/-- The endpoint call's outcome: a rejection, or a resolution whose `text`
field may be absent. -/
inductive ApiResponse where
  | failure (msg : String)
  | success (text : Option String)
  deriving DecidableEq

/-- The `if (!apiKey)` guard: the credential is `undefined` or empty. -/
def credentialMissing : Option String → Bool
  | none => true
  | some s => s = ""

/-- JavaScript `Math.round` on an exact rational: half-way cases round
toward positive infinity. -/
def jsRound (q : ℚ) : Int := Int.floor (q + 1 / 2)

/-- `Math.max(1, Math.round(durationMinutes * 6))` as computed by
`generateStoryDraft` (`geminiService.ts` line 34). -/
def draftTargetSceneCount (durationMinutes : ℚ) : Int :=
  max 1 (jsRound (durationMinutes * 6))

/-- `Math.max(1, Math.round(durationMinutes * 6))` as computed by
`generateScenesFromStory` (`geminiService.ts` line 76). -/
def scenesTargetSceneCount (durationMinutes : ℚ) : Int :=
  max 1 (jsRound (durationMinutes * 6))

/-- `generateStoryDraft`: credential guard, then the draft request; empty
text is an empty-result error, and the raw text is returned otherwise. -/
def generateStoryDraft (apiKey : Option String) (_topic : String)
    (_customDialogue : Option String) (_durationMinutes : ℚ)
    (response : ApiResponse) : Except GenError String :=
  if credentialMissing apiKey then .error .missingCredential
  else
    match response with
    | .failure m => .error (.provider m)
    | .success none => .error (.emptyResult "No story generated from Gemini.")
    | .success (some t) =>
      if t = "" then .error (.emptyResult "No story generated from Gemini.")
      else .ok t

/-- `generateScenesFromStory`: credential guard, then the scenes request;
empty text is an empty-result error; otherwise the text is fed to
`JSON.parse` and the parse result is returned with no further shape check
(the source's `JSON.parse(text) as Scene[]` is an unchecked type assertion,
so the success value is the raw parsed JSON).  A `JSON.parse` throw
(`SyntaxError`) propagates; its platform-specific message is modelled by a
fixed marker string. -/
def generateScenesFromStory (apiKey : Option String) (_storyText : String)
    (_durationMinutes : ℚ) (_allowVariations : Bool)
    (response : ApiResponse) : Except GenError Json :=
  if credentialMissing apiKey then .error .missingCredential
  else
    match response with
    | .failure m => .error (.provider m)
    | .success none => .error (.emptyResult "No response generated from Gemini.")
    | .success (some t) =>
      if t = "" then .error (.emptyResult "No response generated from Gemini.")
      else
        match parseJson t with
        | none => .error (.decodeError "SyntaxError: Unexpected token in JSON")
        | some j => .ok j

/-- The message text carried to the controller boundary by a thrown error
(`error.message` of the corresponding JS `Error`). -/
def errorMessage : GenError → String
  | .missingCredential => "API Key is missing. Please check your environment configuration."
  | .emptyResult m => m
  | .decodeError m => m
  | .provider m => m

/-! ### Decoding a parsed document into typed scenes

No code in the repository re-reads the exported document; the typed reading
below is the reference meaning of "the expected `Scene`-array shape"
(`src/types.ts`) used by the round-trip and shape claims. -/

/-- Read an integer-valued JSON number. -/
def ratToInt : ℚ → Option Int
  | q => if q.den = 1 then some q.num else none

/-- Read one scene object (all nine `Scene` fields, in declaration order). -/
def jsonToScene : Json → Option Scene
  | .obj [(k1, .num n1), (k2, .num n2), (k3, .str s3), (k4, .str s4),
          (k5, .str s5), (k6, .str s6), (k7, .str s7), (k8, .str s8),
          (k9, .str s9)] =>
    if k1 = "scene_number" ∧ k2 = "duration_seconds" ∧ k3 = "setting_description"
        ∧ k4 = "character_appearance" ∧ k5 = "action_description"
        ∧ k6 = "dialogue" ∧ k7 = "camera_angle" ∧ k8 = "lighting" ∧ k9 = "mood" then
      match ratToInt n1, ratToInt n2 with
      | some i1, some i2 => some ⟨i1, i2, s3, s4, s5, s6, s7, s8, s9⟩
      | _, _ => none
    else none
  | _ => none

/-- Read a list of scene objects. -/
def scenesFromList : List Json → Option (List Scene)
  | [] => some []
  | j :: js =>
    match jsonToScene j, scenesFromList js with
    | some s, some l => some (s :: l)
    | _, _ => none

/-- Read a whole document as a scene array. -/
def jsonToScenes : Json → Option (List Scene)
  | .arr l => scenesFromList l
  | _ => none

/-- The JSON value of one scene (fields in `src/types.ts` order). -/
def sceneJson (s : Scene) : Json :=
  .obj [("scene_number", .num (s.scene_number : ℚ)),
        ("duration_seconds", .num (s.duration_seconds : ℚ)),
        ("setting_description", .str s.setting_description),
        ("character_appearance", .str s.character_appearance),
        ("action_description", .str s.action_description),
        ("dialogue", .str s.dialogue),
        ("camera_angle", .str s.camera_angle),
        ("lighting", .str s.lighting),
        ("mood", .str s.mood)]

/-- The exported document: `JSON.stringify(scenes, null, 2)`
(`handleDownloadAll`, `src/App.tsx` line 219). -/
def stringifyScenes (l : List Scene) : String :=
  String.mk (printV 0 (.arr (l.map sceneJson)))

/-- Parse an exported document back into a typed scene list. -/
def decodeDoc (txt : String) : Option (List Scene) :=
  match parseJson txt with
  | some j => jsonToScenes j
  | none => none

/-! ### Error classifier (`getFriendlyErrorMessage`, `src/App.tsx` 23-64)

The classifier receives `error.message` (or `String(error)`); the embedding
takes that message text directly.  Each `if` condition of the source is one
named rule predicate. -/

/-- Rule 1: configuration error (missing key). -/
def ruleMissingKey (m : String) : Bool := includesStr m "API Key is missing"

/-- Rule 2: rate limits (HTTP 429 / quota). -/
def ruleRateLimit (m : String) : Bool :=
  includesStr m "429" || includesStr (toLowerStr m) "quota"
    || includesStr (toLowerStr m) "exhausted"

/-- Rule 3: authentication / permission (HTTP 400/403). -/
def ruleAuth (m : String) : Bool :=
  includesStr m "400" || includesStr m "403" || includesStr m "API key not valid"

/-- Rule 4: server errors (HTTP 500/503 / overloaded). -/
def ruleServer (m : String) : Bool :=
  includesStr m "500" || includesStr m "503" || includesStr (toLowerStr m) "overloaded"

/-- Rule 5: network issues. -/
def ruleNetwork (m : String) : Bool :=
  includesStr (toLowerStr m) "fetch" || includesStr (toLowerStr m) "network"
    || includesStr (toLowerStr m) "failed to connect"

/-- Rule 6: data / parsing issues. -/
def ruleJsonData (m : String) : Bool :=
  includesStr m "JSON" || includesStr m "SyntaxError" || includesStr m "Unexpected token"

/-- Rule 7: safety filters (note `candidate` is matched case-sensitively). -/
def ruleSafety (m : String) : Bool :=
  includesStr (toLowerStr m) "safety" || includesStr (toLowerStr m) "blocked"
    || includesStr m "candidate"

/-- The returned message for rule 1. -/
def msgMissingKey : String :=
  "Configuration Error: The API Key is missing. Please check your environment settings."

/-- The returned message for rule 2. -/
def msgRateLimit : String :=
  "Usage Limit Exceeded: The AI service is currently busy or you have hit your rate limit. Please wait a minute and try again."

/-- The returned message for rule 3. -/
def msgAuth : String :=
  "Authentication Error: The provided API key is invalid or has expired."

/-- The returned message for rule 4. -/
def msgServer : String :=
  "Service Unavailable: Google\x27s AI servers are currently overloaded. Please try again shortly."

/-- The returned message for rule 5. -/
def msgNetwork : String :=
  "Connection Error: Unable to reach the AI service. Please check your internet connection."

/-- The returned message for rule 6. -/
def msgJsonData : String :=
  "Data Processing Error: The AI failed to generate valid structured data. Retrying usually fixes this."

/-- The returned message for rule 7. -/
def msgSafety : String :=
  "Content Blocked: The request was flagged by safety filters. Please try modifying your topic or prompt."

/-- The fallback message: truncated raw text (JS `message.slice(0, 150)`). -/
def msgFallback (m : String) : String :=
  "An unexpected error occurred: " ++ sliceU16 150 m
    ++ (if 150 < utf16Length m then "..." else "")

/-- `getFriendlyErrorMessage`: the source's ordered `if` chain. -/
def getFriendlyErrorMessage (m : String) : String :=
  if ruleMissingKey m then msgMissingKey
  else if ruleRateLimit m then msgRateLimit
  else if ruleAuth m then msgAuth
  else if ruleServer m then msgServer
  else if ruleNetwork m then msgNetwork
  else if ruleJsonData m then msgJsonData
  else if ruleSafety m then msgSafety
  else msgFallback m

/-! ### View/state controller (`App`, `src/App.tsx`)

The component state relevant to the generation pipeline and the activity
record, as one record.  Each handler is a function from the pre-call state
(plus the eventual result of the generation call it awaits) to the state
after the handler has fully run: the transient `GENERATING_*` stage and the
`setError(null)` at the start of an attempt are interior writes whose final
values the functions reproduce exactly. -/

/-- The controller's state fields used by the generation pipeline. -/
structure ControllerState where
  appState : AppState
  user : Option User
  topic : String
  customDialogue : String
  duration : ℚ
  storyDraft : String
  scenes : List Scene
  error : Option String
  allowVariations : Bool
  userDb : List UserStats
  deriving DecidableEq

/-- `INITIAL_MOCK_DB` (`src/App.tsx` lines 9-14). -/
def INITIAL_MOCK_DB : List UserStats :=
  [⟨"1", "alice@studio.com", "Alice Director", "https://picsum.photos/100/100?random=1",
     42, 520, "2023-10-24 14:30", .user⟩,
   ⟨"2", "bob@creative.net", "Bob Writer", "https://picsum.photos/100/100?random=2",
     15, 180, "2023-10-25 09:15", .user⟩,
   ⟨"3", "charlie@video.io", "Charlie Motion", "https://picsum.photos/100/100?random=3",
     8, 96, "2023-10-26 11:00", .user⟩,
   ⟨"4", "demo.user@gmail.com", "Creative Director", "https://picsum.photos/100/100?random=4",
     0, 0, "Now", .user⟩]

/-- `MOCK_USER` (`src/App.tsx` lines 16-20). -/
def MOCK_USER : User :=
  ⟨"demo.user@gmail.com", "Creative Director", "https://picsum.photos/100/100?random=4"⟩

/-- `updateUserActivity` (`src/App.tsx` lines 145-157): bump the matching
record's counters (`storiesGenerated` only when `scenesCount > 0`). -/
def updateUserActivity (db : List UserStats) (email : String) (scenesCount : Int) :
    List UserStats :=
  db.map fun u =>
    if u.email = email then
      { u with
        lastActive := "Just now",
        storiesGenerated :=
          if scenesCount > 0 then u.storiesGenerated + 1 else u.storiesGenerated,
        totalScenesGenerated := u.totalScenesGenerated + scenesCount }
    else u

/-- `handleGenerateDraft` (`src/App.tsx` lines 170-189), given the awaited
result of the draft call it issues. -/
def handleGenerateDraft (s : ControllerState) (result : Except GenError String) :
    ControllerState :=
  if jsTrim s.topic = "" then s
  else
    match result with
    | .ok draft =>
      { s with error := none, storyDraft := draft, appState := .storyReview }
    | .error e =>
      { s with error := some (getFriendlyErrorMessage (errorMessage e)),
               appState := .input }

/-- `handleGenerateScenes` (`src/App.tsx` lines 191-216), given the awaited
(typed) result of the scenes call it issues. -/
def handleGenerateScenes (s : ControllerState) (result : Except GenError (List Scene)) :
    ControllerState :=
  if jsTrim s.storyDraft = "" then s
  else
    match result with
    | .ok generatedScenes =>
      { s with
        error := none,
        scenes := generatedScenes,
        userDb :=
          match s.user with
          | some u => updateUserActivity s.userDb u.email (generatedScenes.length : Int)
          | none => s.userDb,
        appState := .results }
    | .error e =>
      { s with error := some (getFriendlyErrorMessage (errorMessage e)),
               appState := .storyReview }

/-- `handleReset` (`src/App.tsx` lines 230-239), on the confirmed branch of
the `window.confirm` dialog. -/
def handleReset (s : ControllerState) : ControllerState :=
  { s with appState := .input, topic := "", customDialogue := "",
           storyDraft := "", duration := 1, scenes := [] }

/-! ### The classifier as an ordered rule list

The specification (§4.3, §9) describes the classifier as an ordered list of
(predicate, category) rules, first match winning.  `firstMatchCat` is that
reading, to be compared against the source's `if` chain. -/

/-- The user-facing error categories of §4.3. -/
inductive ErrCategory where
  | missingCredential
  | rateLimit
  | authentication
  | unavailable
  | network
  | badData
  | safetyBlocked
  | fallback
  deriving DecidableEq

/-- The classifier's rules, in the specified priority order. -/
def classifierRules : List ((String → Bool) × ErrCategory) :=
  [(ruleMissingKey, .missingCredential),
   (ruleRateLimit, .rateLimit),
   (ruleAuth, .authentication),
   (ruleServer, .unavailable),
   (ruleNetwork, .network),
   (ruleJsonData, .badData),
   (ruleSafety, .safetyBlocked)]

/-- Evaluate rules in sequence; the first matching rule wins. -/
def firstMatch : List ((String → Bool) × ErrCategory) → String → ErrCategory
  | [], _ => .fallback
  | r :: rs, m => if r.1 m then r.2 else firstMatch rs m

/-- The category the ordered rule list assigns to a message. -/
def firstMatchCat (m : String) : ErrCategory := firstMatch classifierRules m

/-- The user-facing message of each category. -/
def categoryMessage : ErrCategory → String → String
  | .missingCredential, _ => msgMissingKey
  | .rateLimit, _ => msgRateLimit
  | .authentication, _ => msgAuth
  | .unavailable, _ => msgServer
  | .network, _ => msgNetwork
  | .badData, _ => msgJsonData
  | .safetyBlocked, _ => msgSafety
  | .fallback, m => msgFallback m

/-! ## The claims -/

/-- C1: for every duration `d` (minutes, as an exact rational), the draft
call (`generateStoryDraft`, line 34) and the scene-decomposition call
(`generateScenesFromStory`, line 76) both compute the target scene count as
`Math.round(d * 6)` floored to a minimum of 1, and the two computed values
are identical for the same `d`. -/
theorem C1_target_scene_count (d : ℚ) :
    draftTargetSceneCount d = scenesTargetSceneCount d
    ∧ draftTargetSceneCount d = max 1 (Int.floor (d * 6 + 1 / 2)) :=
  ⟨rfl, rfl⟩

/-- C5: with no API credential configured, both generation calls fail with
the missing-credential error for every value of the other arguments, and the
result does not depend on the endpoint response — no network outcome is
consulted, modelling "before any network call is attempted". -/
theorem C5_missing_credential (topic story : String) (dlg : Option String)
    (d : ℚ) (av : Bool) (resp : ApiResponse) :
    generateStoryDraft none topic dlg d resp = .error .missingCredential
    ∧ generateScenesFromStory none story d av resp = .error .missingCredential :=
  ⟨rfl, rfl⟩

/-- A Results-stage state with the consistency-mode flag switched on
(reachable: the flag is user-toggled during draft review and is not reset on
success). -/
def c6PriorState : ControllerState :=
  ⟨.results, some MOCK_USER, "a lighthouse keeper", "", 1, "draft text",
   [⟨1, 10, "set", "app", "act", "", "Wide", "Sunset", "Tense"⟩],
   none, true, INITIAL_MOCK_DB⟩

/-- C6 counterexample: after a confirmed reset from this Results-stage state
the controller is back at Input, but the consistency-mode flag still holds
`true`, not its initial value `false` — so not every user-editable field is
cleared, refuting the claim as stated. -/
theorem C6_counterexample :
    (handleReset c6PriorState).appState = .input
    ∧ (handleReset c6PriorState).allowVariations ≠ false := by
  exact ⟨rfl, by decide⟩

/-- C6 (amended): a confirmed "new story" reset returns the controller to
Input and clears topic, dialogue, draft, duration and the scene list to
their initial values, but leaves the consistency-mode flag (and the error
field, the user identity and the activity record) unchanged. -/
theorem C6_reset_fields (s : ControllerState) :
    (handleReset s).appState = .input
    ∧ (handleReset s).topic = ""
    ∧ (handleReset s).customDialogue = ""
    ∧ (handleReset s).storyDraft = ""
    ∧ (handleReset s).duration = 1
    ∧ (handleReset s).scenes = []
    ∧ (handleReset s).allowVariations = s.allowVariations
    ∧ (handleReset s).error = s.error
    ∧ (handleReset s).user = s.user
    ∧ (handleReset s).userDb = s.userDb :=
  ⟨rfl, rfl, rfl, rfl, rfl, rfl, rfl, rfl, rfl, rfl⟩

/-- C9: invoking the draft handler with an empty or whitespace-only topic,
or the scenes handler with an empty or whitespace-only draft, is a complete
no-op: whatever the (hypothetical) call result would have been, the whole
controller state is returned unchanged. -/
theorem C9_blank_input_noop :
    (∀ (s : ControllerState) (r : Except GenError String),
      jsTrim s.topic = "" → handleGenerateDraft s r = s)
    ∧ (∀ (s : ControllerState) (r : Except GenError (List Scene)),
      jsTrim s.storyDraft = "" → handleGenerateScenes s r = s) := by
  constructor
  · intro s r h
    simp [handleGenerateDraft, h]
  · intro s r h
    simp [handleGenerateScenes, h]

/-- A state whose topic is whitespace-only and whose draft is empty. -/
def c9BlankState : ControllerState :=
  ⟨.input, some MOCK_USER, "   ", "", 1, "", [], none, false, INITIAL_MOCK_DB⟩

/-- C9 witness: at a concrete state with a whitespace-only topic and an
empty draft, both handlers leave the state untouched. -/
theorem C9_blank_input_noop_witness :
    jsTrim c9BlankState.topic = ""
    ∧ handleGenerateDraft c9BlankState (.error (.provider "boom")) = c9BlankState
    ∧ jsTrim c9BlankState.storyDraft = ""
    ∧ handleGenerateScenes c9BlankState (.ok []) = c9BlankState :=
  ⟨by decide, C9_blank_input_noop.1 c9BlankState _ (by decide),
   by decide, C9_blank_input_noop.2 c9BlankState _ (by decide)⟩

/-- C10: the activity-tracking update is a no-op when the email matches no
record: for every database, email absent from it, and scene count, the
database is returned unchanged — so successful generations by an identity
not present in the record are never recorded. -/
theorem C10_absent_email_noop (db : List UserStats) (email : String) (n : Int)
    (h : ∀ u ∈ db, u.email ≠ email) :
    updateUserActivity db email n = db := by
  induction db with
  | nil => rfl
  | cons u t ih =>
    have hu : ¬(u.email = email) := h u (by simp)
    have ht := ih fun x hx => h x (by simp [hx])
    simp only [updateUserActivity, List.map_cons, if_neg hu] at *
    rw [ht]

/-- C10 witness: an email absent from the seeded mock database leaves it
unchanged even for a positive scene count. -/
theorem C10_absent_email_noop_witness :
    (∀ u ∈ INITIAL_MOCK_DB, u.email ≠ "ghost@nowhere.test")
    ∧ updateUserActivity INITIAL_MOCK_DB "ghost@nowhere.test" 5 = INITIAL_MOCK_DB :=
  ⟨by decide, C10_absent_email_noop INITIAL_MOCK_DB "ghost@nowhere.test" 5 (by decide)⟩

/-- C3: the error classifier equals first-match evaluation of the fixed
ordered rule list (missing credential, rate/quota, authentication,
service-unavailable, network, malformed JSON, safety, fallback), so exactly
one category is chosen and the first matching rule wins; and in particular a
message containing both "quota" and "500" (and not matching the earlier
missing-credential rule) is classified rate-limit, not service-unavailable. -/
theorem C3_classifier_priority :
    (∀ m, getFriendlyErrorMessage m = categoryMessage (firstMatchCat m) m)
    ∧ (∀ m, ruleMissingKey m = false →
        includesStr (toLowerStr m) "quota" = true → includesStr m "500" = true →
        firstMatchCat m = .rateLimit ∧ firstMatchCat m ≠ .unavailable) := by
  constructor
  · intro m
    simp only [getFriendlyErrorMessage, firstMatchCat, classifierRules, firstMatch]
    split_ifs <;> rfl
  · intro m h1 hq _h5
    have hrate : ruleRateLimit m = true := by
      simp [ruleRateLimit, hq]
    refine ⟨?_, ?_⟩ <;> simp [firstMatchCat, classifierRules, firstMatch, h1, hrate]

/-- C3 witness: a concrete message mentioning both a quota and HTTP 500 is
classified rate-limit by the ordered rules, and the classifier returns the
rate-limit message for it. -/
theorem C3_classifier_priority_witness :
    ruleMissingKey "You exceeded your current quota. HTTP 500" = false
    ∧ includesStr (toLowerStr "You exceeded your current quota. HTTP 500") "quota" = true
    ∧ includesStr "You exceeded your current quota. HTTP 500" "500" = true
    ∧ firstMatchCat "You exceeded your current quota. HTTP 500" = .rateLimit
    ∧ getFriendlyErrorMessage "You exceeded your current quota. HTTP 500"
        = categoryMessage (firstMatchCat "You exceeded your current quota. HTTP 500")
            "You exceeded your current quota. HTTP 500" :=
  ⟨by decide, by decide, by decide,
   (C3_classifier_priority.2 "You exceeded your current quota. HTTP 500"
      (by decide) (by decide) (by decide)).1,
   C3_classifier_priority.1 "You exceeded your current quota. HTTP 500"⟩

/-- C4: a draft request failing from the Input stage returns the controller
to Input with a non-null error and the draft text unchanged; a scene request
failing from the DraftReview stage returns it to DraftReview with the draft
text preserved and a non-null error — the stage never advances on failure. -/
theorem C4_failure_transitions :
    (∀ (s : ControllerState) (e : GenError),
      s.appState = .input → jsTrim s.topic ≠ "" →
      (handleGenerateDraft s (.error e)).appState = .input
      ∧ (handleGenerateDraft s (.error e)).error ≠ none
      ∧ (handleGenerateDraft s (.error e)).storyDraft = s.storyDraft)
    ∧ (∀ (s : ControllerState) (e : GenError),
      s.appState = .storyReview → jsTrim s.storyDraft ≠ "" →
      (handleGenerateScenes s (.error e)).appState = .storyReview
      ∧ (handleGenerateScenes s (.error e)).storyDraft = s.storyDraft
      ∧ (handleGenerateScenes s (.error e)).error ≠ none) := by
  constructor
  · intro s e _hst h
    simp [handleGenerateDraft, h]
  · intro s e _hst h
    simp [handleGenerateScenes, h]

/-- An Input-stage state with a non-blank topic. -/
def c4DraftState : ControllerState :=
  ⟨.input, some MOCK_USER, "a lighthouse keeper finds a message", "", 1, "",
   [], none, false, INITIAL_MOCK_DB⟩

/-- A DraftReview-stage state with a non-blank draft. -/
def c4SceneState : ControllerState :=
  ⟨.storyReview, some MOCK_USER, "a lighthouse keeper finds a message", "", 1,
   "Once upon a time.", [], none, false, INITIAL_MOCK_DB⟩

/-- C4 witness: both failure transitions at concrete states and a concrete
provider error. -/
theorem C4_failure_transitions_witness :
    (c4DraftState.appState = .input ∧ jsTrim c4DraftState.topic ≠ ""
      ∧ (handleGenerateDraft c4DraftState (.error (.provider "HTTP 500"))).appState = .input
      ∧ (handleGenerateDraft c4DraftState (.error (.provider "HTTP 500"))).error ≠ none
      ∧ (handleGenerateDraft c4DraftState (.error (.provider "HTTP 500"))).storyDraft
          = c4DraftState.storyDraft)
    ∧ (c4SceneState.appState = .storyReview ∧ jsTrim c4SceneState.storyDraft ≠ ""
      ∧ (handleGenerateScenes c4SceneState (.error (.provider "HTTP 500"))).appState
          = .storyReview
      ∧ (handleGenerateScenes c4SceneState (.error (.provider "HTTP 500"))).storyDraft
          = c4SceneState.storyDraft
      ∧ (handleGenerateScenes c4SceneState (.error (.provider "HTTP 500"))).error ≠ none) :=
  ⟨⟨rfl, by decide,
    C4_failure_transitions.1 c4DraftState (.provider "HTTP 500") rfl (by decide)⟩,
   ⟨rfl, by decide,
    C4_failure_transitions.2 c4SceneState (.provider "HTTP 500") rfl (by decide)⟩⟩

/-- C2 counterexample: the scenes call, given the response text consisting
of an empty JSON object, returns that object as a successful result — it is
valid JSON that does not match the expected `Scene`-array shape, yet no
decode-class error is raised, refuting the claim's shape clause. -/
theorem C2_counterexample :
    generateScenesFromStory (some "key") "story" 1 false (.success (some "\x7b\x7d"))
      = .ok (Json.obj [])
    ∧ jsonToScenes (Json.obj []) = none :=
  ⟨rfl, rfl⟩

/-- C2 (amended): with a configured credential, the scenes call fails with
the empty-result error when the endpoint returns no text (or empty text),
fails with the decode error exactly when the text is not valid JSON, and
otherwise returns the `JSON.parse` result unchanged — with no check that it
matches the `Scene`-array shape. -/
theorem C2_scenes_decode (key : Option String) (story : String) (d : ℚ) (av : Bool)
    (hk : credentialMissing key = false) :
    generateScenesFromStory key story d av (.success none)
      = .error (.emptyResult "No response generated from Gemini.")
    ∧ generateScenesFromStory key story d av (.success (some ""))
      = .error (.emptyResult "No response generated from Gemini.")
    ∧ (∀ t, t ≠ "" → parseJson t = none →
        generateScenesFromStory key story d av (.success (some t))
          = .error (.decodeError "SyntaxError: Unexpected token in JSON"))
    ∧ (∀ t j, t ≠ "" → parseJson t = some j →
        generateScenesFromStory key story d av (.success (some t)) = .ok j) := by
  refine ⟨by simp [generateScenesFromStory, hk], by simp [generateScenesFromStory, hk],
    ?_, ?_⟩
  · intro t ht hp
    simp [generateScenesFromStory, hk, ht, hp]
  · intro t j ht hp
    simp [generateScenesFromStory, hk, ht, hp]

/-- C2 witness: concrete non-JSON text yields the decode error; concrete
valid JSON (an empty array) is returned as parsed; and empty text yields the
empty-result error. -/
theorem C2_scenes_decode_witness :
    credentialMissing (some "key") = false
    ∧ generateScenesFromStory (some "key") "story" 1 false (.success none)
        = .error (.emptyResult "No response generated from Gemini.")
    ∧ ("not json" ≠ "" ∧ parseJson "not json" = none
        ∧ generateScenesFromStory (some "key") "story" 1 false (.success (some "not json"))
            = .error (.decodeError "SyntaxError: Unexpected token in JSON"))
    ∧ ("[]" ≠ "" ∧ parseJson "[]" = some (.arr [])
        ∧ generateScenesFromStory (some "key") "story" 1 false (.success (some "[]"))
            = .ok (.arr [])) :=
  ⟨rfl,
   (C2_scenes_decode (some "key") "story" 1 false rfl).1,
   ⟨by decide, rfl,
    (C2_scenes_decode (some "key") "story" 1 false rfl).2.2.1 "not json" (by decide) rfl⟩,
   ⟨by decide, rfl,
    (C2_scenes_decode (some "key") "story" 1 false rfl).2.2.2 "[]" (.arr []) (by decide) rfl⟩⟩

/-- A DraftReview-stage state for the scenes call, with the demo identity
active and the seeded activity record. -/
def c7State : ControllerState :=
  ⟨.storyReview, some MOCK_USER, "topic", "", 1, "story draft", [], none, false,
   INITIAL_MOCK_DB⟩

/-- C7 counterexample: a successful scene-decomposition call that yields
zero scenes (the endpoint returned `[]`) completes — the controller reaches
Results — yet no record's generation count is incremented, because
`updateUserActivity` only bumps `storiesGenerated` when `scenesCount > 0`;
the claim required an increment of one on every successful call. -/
theorem C7_counterexample :
    (handleGenerateScenes c7State (.ok [])).appState = .results
    ∧ (handleGenerateScenes c7State (.ok [])).userDb.map (fun u => u.storiesGenerated)
        = INITIAL_MOCK_DB.map (fun u => u.storiesGenerated) := by
  constructor
  · decide
  · decide

/-- C7 (amended): on a successful scene-decomposition call yielding at least
one scene, every activity record matching the active identity's email has
its generation count incremented by one and its scene count incremented by
the number of scenes produced (and other records are untouched); a
successful call yielding zero scenes leaves the generation count unchanged
(see the counterexample). -/
theorem C7_activity_update (s : ControllerState) (u : User) (l : List Scene)
    (hu : s.user = some u) (hd : jsTrim s.storyDraft ≠ "") (hl : l ≠ []) :
    (handleGenerateScenes s (.ok l)).userDb
      = s.userDb.map (fun r =>
          if r.email = u.email then
            { r with lastActive := "Just now",
                     storiesGenerated := r.storiesGenerated + 1,
                     totalScenesGenerated := r.totalScenesGenerated + (l.length : Int) }
          else r) := by
  have hpos : (0 : Int) < (l.length : Int) := by
    exact_mod_cast List.length_pos.mpr hl
  simp only [handleGenerateScenes, if_neg hd, hu]
  unfold updateUserActivity
  refine List.map_congr_left fun r _ => ?_
  by_cases he : r.email = u.email <;> simp [he, hpos]

/-- A concrete single scene. -/
def w1Scene : Scene := ⟨1, 10, "a dock at dawn", "tall, red coat", "walks", "",
  "Wide Shot", "Dim", "Calm"⟩

/-- C7 witness: a successful call with one concrete scene increments the
demo identity's record as the amended claim states. -/
theorem C7_activity_update_witness :
    c7State.user = some MOCK_USER ∧ jsTrim c7State.storyDraft ≠ ""
    ∧ ([w1Scene] ≠ ([] : List Scene))
    ∧ (handleGenerateScenes c7State (.ok [w1Scene])).userDb
        = c7State.userDb.map (fun r =>
            if r.email = MOCK_USER.email then
              { r with lastActive := "Just now",
                       storiesGenerated := r.storiesGenerated + 1,
                       totalScenesGenerated :=
                         r.totalScenesGenerated + (([w1Scene] : List Scene).length : Int) }
            else r) :=
  ⟨rfl, by decide, by decide,
   C7_activity_update c7State MOCK_USER [w1Scene] rfl (by decide) (by decide)⟩

/-! ## Round-trip of the JSON codec (towards C8)

The development below proves `decodeDoc (stringifyScenes l) = some l` for
every typed scene list: scanning the pretty-printed document recovers the
printed value exactly. -/

/-! ### Whitespace lemmas -/

theorem skipWs_ws_cons {c : Char} (h : isWsC c = true) (cs : List Char) :
    skipWs (c :: cs) = skipWs cs := by
  simp [skipWs, h]

theorem skipWs_not_ws {c : Char} (h : isWsC c = false) (cs : List Char) :
    skipWs (c :: cs) = c :: cs := by
  simp [skipWs, h]

theorem skipWs_sp_append (n : Nat) (X : List Char) :
    skipWs (sp n ++ X) = skipWs X := by
  induction n with
  | zero => rfl
  | succ m ih =>
    rw [sp, List.replicate_succ, List.cons_append,
      skipWs_ws_cons (by decide)]
    exact ih

theorem skipWs_nl_sp (n : Nat) (X : List Char) :
    skipWs (nlC :: (sp n ++ X)) = skipWs X := by
  rw [skipWs_ws_cons (by decide), skipWs_sp_append]

theorem skipWs_space (X : List Char) : skipWs (spaceC :: X) = skipWs X :=
  skipWs_ws_cons (by decide) X

/-! ### Digit-run lemmas -/

theorem digitChar_spec {k : Nat} (h : k < 10) :
    (digitChar k).toNat = 48 + k ∧ isDigitC (digitChar k) = true := by
  interval_cases k <;> exact ⟨by decide, by decide⟩

theorem isDigit_bounds {c : Char} (h : isDigitC c = true) :
    48 ≤ c.toNat ∧ c.toNat ≤ 57 := by
  simpa [isDigitC] using h

theorem natToDigits_lt {n : Nat} (h : n < 10) : natToDigits n = [digitChar n] := by
  rw [natToDigits]
  simp [h]

theorem natToDigits_ge {n : Nat} (h : ¬n < 10) :
    natToDigits n = natToDigits (n / 10) ++ [digitChar (n % 10)] := by
  rw [natToDigits]
  simp [h]

theorem natToDigits_ne_nil (n : Nat) : natToDigits n ≠ [] := by
  by_cases h : n < 10
  · rw [natToDigits_lt h]
    simp
  · rw [natToDigits_ge h]
    simp

theorem natToDigits_digits (n : Nat) : ∀ c ∈ natToDigits n, isDigitC c = true := by
  induction n using Nat.strong_induction_on with
  | _ n ih =>
    by_cases h : n < 10
    · rw [natToDigits_lt h]
      intro c hc
      rw [List.mem_singleton] at hc
      subst hc
      exact (digitChar_spec h).2
    · rw [natToDigits_ge h]
      intro c hc
      rcases List.mem_append.mp hc with hc | hc
      · exact ih (n / 10) (by omega) c hc
      · rw [List.mem_singleton] at hc
        subst hc
        exact (digitChar_spec (Nat.mod_lt _ (by omega))).2

theorem digitsVal_append_one (xs : List Char) (d : Char) :
    digitsVal (xs ++ [d]) = digitsVal xs * 10 + (d.toNat - 48) := by
  simp [digitsVal, List.foldl_append]

theorem digitsVal_natToDigits (n : Nat) : digitsVal (natToDigits n) = n := by
  induction n using Nat.strong_induction_on with
  | _ n ih =>
    by_cases h : n < 10
    · rw [natToDigits_lt h]
      have := (digitChar_spec h).1
      simp [digitsVal]
      omega
    · rw [natToDigits_ge h, digitsVal_append_one, ih (n / 10) (by omega),
        (digitChar_spec (Nat.mod_lt _ (by omega))).1]
      omega

theorem natToDigits_head_pos {n : Nat} (h : 1 ≤ n) :
    (natToDigits n).head? ≠ some (digitChar 0) := by
  induction n using Nat.strong_induction_on with
  | _ n ih =>
    by_cases h10 : n < 10
    · rw [natToDigits_lt h10]
      intro hc
      rw [List.head?_cons, Option.some.injEq] at hc
      have h1 := (digitChar_spec h10).1
      have h2 : (digitChar 0).toNat = 48 := by decide
      rw [hc] at h1
      omega
    · rw [natToDigits_ge h10]
      obtain ⟨c, t, hct⟩ := List.exists_cons_of_ne_nil (natToDigits_ne_nil (n / 10))
      rw [hct, List.cons_append, List.head?_cons]
      have := ih (n / 10) (by omega) (by omega)
      rw [hct, List.head?_cons] at this
      exact this

theorem natToDigits_no_lead_zero (n : Nat) :
    ¬(2 ≤ (natToDigits n).length ∧ (natToDigits n).head? = some (digitChar 0)) := by
  by_cases h : n < 10
  · rw [natToDigits_lt h]
    simp
  · intro ⟨_, hh⟩
    exact natToDigits_head_pos (by omega) hh

/-- A remainder that cannot extend a number: empty, or headed by none of
digit, dot, `e`, `E`.  Every delimiter the printer emits after a number
(comma, newline, closing bracket) qualifies. -/
def numBoundary : List Char → Bool
  | [] => true
  | c :: _ => !(isDigitC c || c = dotC || c = 'e' || c = 'E')

theorem numDelim_head {c : Char} {t : List Char} (h : numBoundary (c :: t) = true) :
    isDigitC c = false ∧ c ≠ dotC ∧ c ≠ 'e' ∧ c ≠ 'E' := by
  simp only [numBoundary, Bool.not_eq_eq_eq_not, Bool.not_true, Bool.or_eq_false_iff,
    decide_eq_false_iff_not] at h
  obtain ⟨⟨⟨hd, h1⟩, h2⟩, h3⟩ := h
  exact ⟨hd, h1, h2, h3⟩

theorem takeDigits_boundary {cs : List Char} (h : numBoundary cs = true) :
    takeDigits cs = ([], cs) := by
  cases cs with
  | nil => rfl
  | cons c t =>
    have hnd := (numDelim_head h).1
    simp [takeDigits, hnd]

theorem takeDigits_run : ∀ (ds rest : List Char), (∀ c ∈ ds, isDigitC c = true) →
    takeDigits rest = ([], rest) → takeDigits (ds ++ rest) = (ds, rest)
  | [], rest, _, h0 => by simpa using h0
  | d :: ds, rest, hall, h0 => by
    have hdig : isDigitC d = true := hall d (List.mem_cons_self d ds)
    have htail := takeDigits_run ds rest (fun c hc => hall c (List.mem_cons_of_mem d hc)) h0
    simp [takeDigits, hdig, htail]

theorem parseFracPart_stop {rest : List Char} (h : numBoundary rest = true) :
    parseFracPart rest = some ([], rest) := by
  match rest with
  | [] => rfl
  | c :: t =>
    have := (numDelim_head h).2.1
    simp [parseFracPart, this]

theorem parseExpPart_stop {rest : List Char} (h : numBoundary rest = true) :
    parseExpPart rest = some ((false, []), rest) := by
  match rest with
  | [] => rfl
  | c :: t =>
    obtain ⟨_, _, he, hE⟩ := numDelim_head h
    simp [parseExpPart, he, hE]

/-! ### Number round-trip -/

theorem parseNumber_int (k : Int) (rest : List Char) (hr : numBoundary rest = true) :
    parseNumber (intToChars k ++ rest) = some ((k : ℚ), rest) := by
  have hrun : takeDigits (natToDigits k.natAbs ++ rest) = (natToDigits k.natAbs, rest) :=
    takeDigits_run _ _ (natToDigits_digits _) (takeDigits_boundary hr)
  obtain ⟨c0, t0, h0⟩ := List.exists_cons_of_ne_nil (natToDigits_ne_nil k.natAbs)
  have hnolead := natToDigits_no_lead_zero k.natAbs
  have hdv := digitsVal_natToDigits k.natAbs
  rw [h0] at hrun hnolead hdv
  by_cases hk : k < 0
  · have harg : intToChars k ++ rest = minusC :: ((c0 :: t0) ++ rest) := by
      rw [intToChars, if_pos hk, h0]
      rfl
    rw [harg]
    have hsplit : splitSign (minusC :: ((c0 :: t0) ++ rest)) = (true, (c0 :: t0) ++ rest) := by
      simp [splitSign]
    simp only [parseNumber, hsplit, hrun, if_neg hnolead,
      parseFracPart_stop hr, parseExpPart_stop hr]
    simp only [List.append_nil, List.isEmpty_nil, if_true, pow_zero, div_one,
      List.length_nil, Option.some.injEq, Prod.mk.injEq, and_true]
    rw [hdv, Int.cast_natAbs, abs_of_neg hk]
    push_cast
    ring
  · have harg : intToChars k ++ rest = (c0 :: t0) ++ rest := by
      rw [intToChars, if_neg hk, h0]
    have hc0 : isDigitC c0 = true :=
      natToDigits_digits k.natAbs c0 (h0 ▸ List.mem_cons_self c0 t0)
    have hnm : ¬(c0 = minusC) := by
      intro heq
      subst heq
      exact absurd hc0 (by decide)
    rw [harg]
    have hsplit : splitSign ((c0 :: t0) ++ rest) = (false, (c0 :: t0) ++ rest) := by
      simp [splitSign, hnm]
    simp only [parseNumber, hsplit, hrun, if_neg hnolead,
      parseFracPart_stop hr, parseExpPart_stop hr]
    simp only [List.append_nil, List.isEmpty_nil, if_true, pow_zero, div_one,
      List.length_nil, Option.some.injEq, Prod.mk.injEq, and_true]
    simp only [Bool.false_eq_true, if_false]
    rw [hdv, Int.cast_natAbs, abs_of_nonneg (not_lt.mp hk)]

theorem digit_starts {c : Char} (h : isDigitC c = true) :
    isWsC c = false ∧ c ≠ qmarkC ∧ c ≠ lbrackC ∧ c ≠ lbraceC
      ∧ c ≠ 't' ∧ c ≠ 'f' ∧ c ≠ 'n' ∧ c ≠ rbrackC ∧ c ≠ rbraceC := by
  have hne : ∀ x : Char, isDigitC x = false → c ≠ x := by
    intro x hx heq
    rw [heq, hx] at h
    exact Bool.noConfusion h
  have hws : isWsC c = false := by
    cases hw : isWsC c with
    | false => rfl
    | true =>
      exfalso
      simp only [isWsC, Bool.or_eq_true, decide_eq_true_eq] at hw
      rcases hw with ((h1 | h1) | h1) | h1 <;> subst h1 <;> exact absurd h (by decide)
  exact ⟨hws, hne _ (by decide), hne _ (by decide), hne _ (by decide), hne _ (by decide),
    hne _ (by decide), hne _ (by decide), hne _ (by decide), hne _ (by decide)⟩

theorem parseValue_at_num (f : Nat) (c0 : Char) (t : List Char)
    (hws : isWsC c0 = false) (h1 : c0 ≠ qmarkC) (h2 : c0 ≠ lbrackC) (h3 : c0 ≠ lbraceC)
    (h4 : c0 ≠ 't') (h5 : c0 ≠ 'f') (h6 : c0 ≠ 'n')
    (hg : (c0 = minusC || isDigitC c0) = true) :
    parseValue (f + 1) (c0 :: t)
      = match parseNumber (c0 :: t) with
        | some (q, r) => some (.num q, r)
        | none => none := by
  simp only [parseValue, skipWs_not_ws hws, if_neg h1, if_neg h2, if_neg h3,
    if_neg h4, if_neg h5, if_neg h6, if_pos hg]

theorem minus_start_facts :
    isWsC minusC = false ∧ minusC ≠ qmarkC ∧ minusC ≠ lbrackC ∧ minusC ≠ lbraceC
      ∧ minusC ≠ 't' ∧ minusC ≠ 'f' ∧ minusC ≠ 'n'
      ∧ (minusC = minusC || isDigitC minusC) = true := by
  decide

theorem parseValue_int (f : Nat) (k : Int) (rest : List Char) (hr : numBoundary rest = true) :
    parseValue (f + 1) (intToChars k ++ rest) = some (.num (k : ℚ), rest) := by
  by_cases hk : k < 0
  · have harg : intToChars k ++ rest = minusC :: (natToDigits k.natAbs ++ rest) := by
      rw [intToChars, if_pos hk]
      rfl
    obtain ⟨m1, m2, m3, m4, m5, m6, m7, m8⟩ := minus_start_facts
    rw [harg, parseValue_at_num f minusC _ m1 m2 m3 m4 m5 m6 m7 m8, ← harg,
      parseNumber_int k rest hr]
  · obtain ⟨c0, t0, h0⟩ := List.exists_cons_of_ne_nil (natToDigits_ne_nil k.natAbs)
    have hc0 : isDigitC c0 = true :=
      natToDigits_digits k.natAbs c0 (h0 ▸ List.mem_cons_self c0 t0)
    obtain ⟨hws, hq, hbk, hbc, ht', hf', hn', _, _⟩ := digit_starts hc0
    have harg : intToChars k ++ rest = c0 :: (t0 ++ rest) := by
      rw [intToChars, if_neg hk, h0]
      rfl
    rw [harg, parseValue_at_num f c0 _ hws hq hbk hbc ht' hf' hn' (by simp [hc0]),
      ← harg, parseNumber_int k rest hr]

/-! ### String round-trip -/

theorem hexValC_hexDigitChar {n : Nat} (h : n < 16) : hexValC (hexDigitChar n) = some n := by
  interval_cases n <;> decide

theorem parseU_control {c : Char} (h : c.toNat < 32) (rest : List Char) :
    parseU (digitChar 0 :: digitChar 0 :: hexDigitChar (c.toNat / 16)
      :: hexDigitChar (c.toNat % 16) :: rest) = some (c, rest) := by
  have hdiv : c.toNat / 16 < 16 := by omega
  have hmod : c.toNat % 16 < 16 := by omega
  simp only [parseU, hex4, hexValC_hexDigitChar hdiv, hexValC_hexDigitChar hmod,
    show hexValC (digitChar 0) = some 0 from by decide, Option.bind_eq_bind,
    Option.some_bind]
  have harith : ((0 * 16 + 0) * 16 + c.toNat / 16) * 16 + c.toNat % 16 = c.toNat := by
    omega
  rw [harith, if_neg (by omega), if_neg (by omega), Char.ofNat_toNat]

theorem psbGo_quote (c : Char) (f : Nat) (rest : List Char) :
    psbGo (f + 1) (quoteChar c ++ rest)
      = (psbGo f rest).map (fun p => (c :: p.1, p.2)) := by
  by_cases h1 : c = qmarkC
  · subst h1; rfl
  by_cases h2 : c = bslashC
  · subst h2; rfl
  by_cases h3 : c = Char.ofNat 8
  · subst h3; rfl
  by_cases h4 : c = Char.ofNat 9
  · subst h4; rfl
  by_cases h5 : c = nlC
  · subst h5; rfl
  by_cases h6 : c = Char.ofNat 12
  · subst h6; rfl
  by_cases h7 : c = Char.ofNat 13
  · subst h7; rfl
  by_cases h8 : c.toNat < 32
  · rw [quoteChar, if_neg h1, if_neg h2, if_neg h3, if_neg h4, if_neg h5, if_neg h6,
      if_neg h7, if_pos h8]
    show psbGo (f + 1) (bslashC :: 'u' :: digitChar 0 :: digitChar 0
      :: hexDigitChar (c.toNat / 16) :: hexDigitChar (c.toNat % 16) :: rest) = _
    simp +decide [psbGo, parseU_control h8]
  · rw [quoteChar, if_neg h1, if_neg h2, if_neg h3, if_neg h4, if_neg h5, if_neg h6,
      if_neg h7, if_neg h8]
    show psbGo (f + 1) (c :: rest) = _
    simp only [psbGo, if_neg h1, if_neg h2, if_neg h8]

theorem qencode_length_ge (s : List Char) : s.length ≤ (qencode s).length := by
  induction s with
  | nil => simp [qencode]
  | cons c cs ih =>
    have hq : 1 ≤ (quoteChar c).length := by
      rw [quoteChar]
      split_ifs <;> simp
    simp only [qencode, List.length_append, List.length_cons]
    omega

theorem psbGo_qencode (s : List Char) : ∀ (f : Nat), s.length < f → ∀ (rest : List Char),
    psbGo f (qencode s ++ qmarkC :: rest) = some (s, rest) := by
  induction s with
  | nil =>
    intro f hf rest
    match f, hf with
    | g + 1, _ =>
      show psbGo (g + 1) (qmarkC :: rest) = _
      simp [psbGo]
  | cons c cs ih =>
    intro f hf rest
    match f, hf with
    | g + 1, hf =>
      rw [qencode, List.append_assoc, psbGo_quote,
        ih g (by simpa using Nat.lt_of_succ_lt_succ hf) rest]
      rfl

theorem parseStringBody_qencode (s : List Char) (rest : List Char) :
    parseStringBody (qencode s ++ qmarkC :: rest) = some (s, rest) := by
  have hlen := qencode_length_ge s
  rw [parseStringBody]
  exact psbGo_qencode s _ (by simp only [List.length_append, List.length_cons]; omega) rest

/-! ### Parser dispatch and whitespace-congruence lemmas -/

theorem parseValue_congr_ws {X Y : List Char} (h : skipWs X = skipWs Y) :
    ∀ f, parseValue f X = parseValue f Y
  | 0 => rfl
  | f + 1 => by
    simp only [parseValue]
    rw [h]

theorem parseItemsNE_congr_ws {X Y : List Char} (h : skipWs X = skipWs Y) :
    ∀ f, parseItemsNE f X = parseItemsNE f Y
  | 0 => rfl
  | f + 1 => by
    simp only [parseItemsNE]
    rw [parseValue_congr_ws h f]

theorem parseMembersNE_congr_ws {X Y : List Char} (h : skipWs X = skipWs Y) :
    ∀ f, parseMembersNE f X = parseMembersNE f Y
  | 0 => rfl
  | f + 1 => by
    simp only [parseMembersNE]
    rw [h]

theorem parseValue_at_qmark (f : Nat) (t : List Char) :
    parseValue (f + 1) (qmarkC :: t)
      = match parseStringBody t with
        | some (chars, r) => some (.str (String.mk chars), r)
        | none => none := by
  simp +decide [parseValue, skipWs]

theorem parseValue_at_lbrack (f : Nat) (t : List Char) :
    parseValue (f + 1) (lbrackC :: t)
      = match parseItems f t with
        | some (l, r) => some (.arr l, r)
        | none => none := by
  simp +decide [parseValue, skipWs]

theorem parseValue_at_lbrace (f : Nat) (t : List Char) :
    parseValue (f + 1) (lbraceC :: t)
      = match parseMembers f t with
        | some (l, r) => some (.obj l, r)
        | none => none := by
  simp +decide [parseValue, skipWs]

theorem parseItems_not_rbrack (f : Nat) {c : Char} (t : List Char)
    (hws : isWsC c = false) (hc : c ≠ rbrackC) :
    parseItems (f + 1) (c :: t) = parseItemsNE f (c :: t) := by
  simp only [parseItems, skipWs_not_ws hws, if_neg hc]

theorem parseMembers_not_rbrace (f : Nat) {c : Char} (t : List Char)
    (hws : isWsC c = false) (hc : c ≠ rbraceC) :
    parseMembers (f + 1) (c :: t) = parseMembersNE f (c :: t) := by
  simp only [parseMembers, skipWs_not_ws hws, if_neg hc]

theorem numDelim_nl (Z : List Char) : numBoundary (nlC :: Z) = true := by
  simp +decide [numBoundary]

theorem numDelim_comma (Z : List Char) : numBoundary (commaC :: Z) = true := by
  simp +decide [numBoundary]

/-! ### Printed output starts with a decisive character -/

theorem printV_start (ind : Nat) (v : Json) :
    ∃ c t, printV ind v = c :: t ∧ isWsC c = false ∧ c ≠ rbrackC ∧ c ≠ rbraceC := by
  match v with
  | .null => exact ⟨'n', _, rfl, by decide, by decide, by decide⟩
  | .bool true => exact ⟨'t', _, rfl, by decide, by decide, by decide⟩
  | .bool false => exact ⟨'f', _, rfl, by decide, by decide, by decide⟩
  | .str s => exact ⟨qmarkC, _, rfl, by decide, by decide, by decide⟩
  | .arr [] => exact ⟨lbrackC, _, rfl, by decide, by decide, by decide⟩
  | .arr (x :: xs) => exact ⟨lbrackC, _, rfl, by decide, by decide, by decide⟩
  | .obj [] => exact ⟨lbraceC, _, rfl, by decide, by decide, by decide⟩
  | .obj (m :: ms) => exact ⟨lbraceC, _, rfl, by decide, by decide, by decide⟩
  | .num q =>
    by_cases hk : q.num < 0
    · refine ⟨minusC, natToDigits q.num.natAbs, ?_, by decide, by decide, by decide⟩
      show intToChars q.num = _
      rw [intToChars, if_pos hk]
    · obtain ⟨c0, t0, h0⟩ := List.exists_cons_of_ne_nil (natToDigits_ne_nil q.num.natAbs)
      have hc0 : isDigitC c0 = true :=
        natToDigits_digits q.num.natAbs c0 (h0 ▸ List.mem_cons_self c0 t0)
      obtain ⟨hws, _, _, _, _, _, _, hbk, hbc⟩ := digit_starts hc0
      refine ⟨c0, t0, ?_, hws, hbk, hbc⟩
      show intToChars q.num = _
      rw [intToChars, if_neg hk, h0]

theorem printV_length_pos (ind : Nat) (v : Json) : 1 ≤ (printV ind v).length := by
  obtain ⟨c, t, h, _⟩ := printV_start ind v
  simp [h]

/-! ### The round-trip, by mutual induction over the printed value -/

mutual

theorem rtValue : ∀ (v : Json) (ind fl : Nat) (rest : List Char),
    intNums v = true → (printV ind v).length < fl → numBoundary rest = true →
    parseValue fl (printV ind v ++ rest) = some (v, rest)
  | .null, ind, fl, rest, _, hf, _ => by
    obtain ⟨f, rfl⟩ : ∃ f, fl = f + 1 := ⟨fl - 1, by omega⟩
    show parseValue (f + 1) ('n' :: 'u' :: 'l' :: 'l' :: rest) = _
    simp +decide [parseValue, skipWs]
  | .bool true, ind, fl, rest, _, hf, _ => by
    obtain ⟨f, rfl⟩ : ∃ f, fl = f + 1 := ⟨fl - 1, by omega⟩
    show parseValue (f + 1) ('t' :: 'r' :: 'u' :: 'e' :: rest) = _
    simp +decide [parseValue, skipWs]
  | .bool false, ind, fl, rest, _, hf, _ => by
    obtain ⟨f, rfl⟩ : ∃ f, fl = f + 1 := ⟨fl - 1, by omega⟩
    show parseValue (f + 1) ('f' :: 'a' :: 'l' :: 's' :: 'e' :: rest) = _
    simp +decide [parseValue, skipWs]
  | .num q, ind, fl, rest, hnum, hf, hr => by
    have hden : q.den = 1 := by simpa [intNums] using hnum
    have hq : ((q.num : ℚ)) = q := (Rat.den_eq_one_iff q).mp hden
    obtain ⟨f, rfl⟩ : ∃ f, fl = f + 1 := ⟨fl - 1, by omega⟩
    show parseValue (f + 1) (intToChars q.num ++ rest) = _
    rw [parseValue_int f q.num rest hr, hq]
  | .str s, ind, fl, rest, _, hf, _ => by
    obtain ⟨f, rfl⟩ : ∃ f, fl = f + 1 := ⟨fl - 1, by omega⟩
    have harg : printV ind (.str s) ++ rest = qmarkC :: (qencode s.data ++ qmarkC :: rest) := by
      show (qmarkC :: (qencode s.data ++ [qmarkC])) ++ rest = _
      simp
    rw [harg, parseValue_at_qmark, parseStringBody_qencode]
  | .arr [], ind, fl, rest, _, hf, _ => by
    have h2 : 2 < fl := by simpa [printV] using hf
    obtain ⟨f, rfl⟩ : ∃ f, fl = f + 2 := ⟨fl - 2, by omega⟩
    show parseValue (f + 1 + 1) (lbrackC :: rbrackC :: rest) = _
    rw [parseValue_at_lbrack]
    simp +decide [parseItems, skipWs]
  | .arr (x :: xs), ind, fl, rest, hnum, hf, _ => by
    have hxx : intNums x = true ∧ intNumsList xs = true := by
      simpa [intNums, intNumsList] using hnum
    have hlen : (printV ind (.arr (x :: xs))).length
        = (printV (ind + 2) x).length + (printItemsRest (ind + 2) xs).length + ind + ind + 6 := by
      simp [printV, sp]
      omega
    obtain ⟨f, rfl⟩ : ∃ f, fl = f + 2 := ⟨fl - 2, by omega⟩
    obtain ⟨c, t, hct, hcws, hcbr, _⟩ := printV_start (ind + 2) x
    have harg : printV ind (.arr (x :: xs)) ++ rest
        = lbrackC :: (nlC :: (sp (ind + 2) ++ (printV (ind + 2) x
            ++ (printItemsRest (ind + 2) xs ++ (nlC :: (sp ind ++ rbrackC :: rest)))))) := by
      show (lbrackC :: nlC :: (sp (ind + 2) ++ printV (ind + 2) x
        ++ printItemsRest (ind + 2) xs ++ nlC :: (sp ind ++ [rbrackC]))) ++ rest = _
      simp
    rw [harg]
    show parseValue (f + 1 + 1) _ = _
    rw [parseValue_at_lbrack]
    have hbody : printV (ind + 2) x
        ++ (printItemsRest (ind + 2) xs ++ (nlC :: (sp ind ++ rbrackC :: rest)))
        = c :: (t ++ (printItemsRest (ind + 2) xs ++ (nlC :: (sp ind ++ rbrackC :: rest)))) := by
      rw [hct, List.cons_append]
    have hskip : skipWs (nlC :: (sp (ind + 2) ++ (printV (ind + 2) x
        ++ (printItemsRest (ind + 2) xs ++ (nlC :: (sp ind ++ rbrackC :: rest))))))
        = c :: (t ++ (printItemsRest (ind + 2) xs ++ (nlC :: (sp ind ++ rbrackC :: rest)))) := by
      rw [skipWs_nl_sp, hbody, skipWs_not_ws hcws]
    conv_lhs => rw [show (f + 1 : Nat) = (f + 1) from rfl]
    rw [show parseItems (f + 1) (nlC :: (sp (ind + 2) ++ (printV (ind + 2) x
        ++ (printItemsRest (ind + 2) xs ++ (nlC :: (sp ind ++ rbrackC :: rest))))))
      = parseItemsNE f (c :: (t ++ (printItemsRest (ind + 2) xs
          ++ (nlC :: (sp ind ++ rbrackC :: rest))))) from by
      simp only [parseItems, hskip, if_neg hcbr]]
    rw [← hbody, rtItems x xs (ind + 2) ind f rest hxx.1 hxx.2 (by omega)]
  | .obj [], ind, fl, rest, _, hf, _ => by
    have h2 : 2 < fl := by simpa [printV] using hf
    obtain ⟨f, rfl⟩ : ∃ f, fl = f + 2 := ⟨fl - 2, by omega⟩
    show parseValue (f + 1 + 1) (lbraceC :: rbraceC :: rest) = _
    rw [parseValue_at_lbrace]
    simp +decide [parseMembers, skipWs]
  | .obj ((k, v) :: ms), ind, fl, rest, hnum, hf, _ => by
    have hmm : intNums (k, v).2 = true ∧ intNumsMembers ms = true := by
      simpa [intNums, intNumsMembers] using hnum
    have hlen : (printV ind (.obj ((k, v) :: ms))).length
        = (printMember (ind + 2) (k, v)).length + (printMembersRest (ind + 2) ms).length
            + ind + ind + 6 := by
      simp [printV, sp]
      omega
    obtain ⟨f, rfl⟩ : ∃ f, fl = f + 2 := ⟨fl - 2, by omega⟩
    have harg : printV ind (.obj ((k, v) :: ms)) ++ rest
        = lbraceC :: (nlC :: (sp (ind + 2) ++ (printMember (ind + 2) (k, v)
            ++ (printMembersRest (ind + 2) ms ++ (nlC :: (sp ind ++ rbraceC :: rest)))))) := by
      show (lbraceC :: nlC :: (sp (ind + 2) ++ printMember (ind + 2) (k, v)
        ++ printMembersRest (ind + 2) ms ++ nlC :: (sp ind ++ [rbraceC]))) ++ rest = _
      simp
    rw [harg]
    show parseValue (f + 1 + 1) _ = _
    rw [parseValue_at_lbrace]
    have hbody : printMember (ind + 2) (k, v)
        ++ (printMembersRest (ind + 2) ms ++ (nlC :: (sp ind ++ rbraceC :: rest)))
        = qmarkC :: ((qencode k.data ++ qmarkC :: colonC :: spaceC :: printV (ind + 2) v)
            ++ (printMembersRest (ind + 2) ms ++ (nlC :: (sp ind ++ rbraceC :: rest)))) := by
      rw [printMember, List.cons_append]
    have hskip : skipWs (nlC :: (sp (ind + 2) ++ (printMember (ind + 2) (k, v)
        ++ (printMembersRest (ind + 2) ms ++ (nlC :: (sp ind ++ rbraceC :: rest))))))
        = qmarkC :: ((qencode k.data ++ qmarkC :: colonC :: spaceC :: printV (ind + 2) v)
            ++ (printMembersRest (ind + 2) ms ++ (nlC :: (sp ind ++ rbraceC :: rest)))) := by
      rw [skipWs_nl_sp, hbody, skipWs_not_ws (by decide)]
    rw [show parseMembers (f + 1) (nlC :: (sp (ind + 2) ++ (printMember (ind + 2) (k, v)
        ++ (printMembersRest (ind + 2) ms ++ (nlC :: (sp ind ++ rbraceC :: rest))))))
      = parseMembersNE f (qmarkC :: ((qencode k.data
          ++ qmarkC :: colonC :: spaceC :: printV (ind + 2) v)
          ++ (printMembersRest (ind + 2) ms ++ (nlC :: (sp ind ++ rbraceC :: rest))))) from by
      simp only [parseMembers, hskip, if_neg (show ¬(qmarkC = rbraceC) by decide)]]
    rw [← hbody, rtMembers (k, v) ms (ind + 2) ind f rest hmm.1 hmm.2 (by omega)]
termination_by v _ _ _ _ _ _ => sizeOf v

theorem rtItems : ∀ (x : Json) (xs : List Json) (ind n fl : Nat) (rest : List Char),
    intNums x = true → intNumsList xs = true →
    (printV ind x).length + (printItemsRest ind xs).length + 1 < fl →
    parseItemsNE fl (printV ind x
        ++ (printItemsRest ind xs ++ (nlC :: (sp n ++ rbrackC :: rest))))
      = some (x :: xs, rest)
  | x, xs, ind, n, fl, rest, hx, hxs, hf => by
    obtain ⟨f, rfl⟩ : ∃ f, fl = f + 1 := ⟨fl - 1, by omega⟩
    have hdelim : numBoundary (printItemsRest ind xs
        ++ (nlC :: (sp n ++ rbrackC :: rest))) = true := by
      cases xs with
      | nil => simpa [printItemsRest] using numDelim_nl (sp n ++ rbrackC :: rest)
      | cons y ys =>
        simpa [printItemsRest] using
          numDelim_comma (nlC :: (sp ind ++ printV ind y ++ printItemsRest ind ys)
            ++ (nlC :: (sp n ++ rbrackC :: rest)))
    have hv := rtValue x ind f
      (printItemsRest ind xs ++ (nlC :: (sp n ++ rbrackC :: rest)))
      hx (by omega) hdelim
    simp only [parseItemsNE, hv]
    cases xs with
    | nil =>
      have hsk : skipWs (printItemsRest ind ([] : List Json)
          ++ (nlC :: (sp n ++ rbrackC :: rest))) = rbrackC :: rest := by
        simp only [printItemsRest, List.nil_append]
        rw [skipWs_nl_sp, skipWs_not_ws (by decide)]
      rw [hsk]
      simp +decide
    | cons y ys =>
      have hyy : intNums y = true ∧ intNumsList ys = true := by
        simpa [intNumsList] using hxs
      have hsk : skipWs (printItemsRest ind (y :: ys)
          ++ (nlC :: (sp n ++ rbrackC :: rest)))
          = commaC :: (nlC :: ((sp ind ++ printV ind y ++ printItemsRest ind ys)
              ++ (nlC :: (sp n ++ rbrackC :: rest)))) := by
        simp only [printItemsRest, List.cons_append]
        rw [skipWs_not_ws (by decide)]
      rw [hsk]
      have hws2 : skipWs (nlC :: (sp ind ++ (printV ind y
          ++ (printItemsRest ind ys ++ nlC :: (sp n ++ rbrackC :: rest)))))
          = skipWs (printV ind y
              ++ (printItemsRest ind ys ++ nlC :: (sp n ++ rbrackC :: rest))) := by
        rw [skipWs_nl_sp]
      have hlen : (printItemsRest ind (y :: ys)).length
          = (printV ind y).length + (printItemsRest ind ys).length + ind + 2 := by
        simp [printItemsRest, sp]
        omega
      have hx1 := printV_length_pos ind x
      have hrec := rtItems y ys ind n f rest hyy.1 hyy.2 (by omega)
      simp +decide [parseItemsNE_congr_ws hws2 f, hrec]
termination_by x xs _ _ _ _ _ _ _ => sizeOf (x :: xs)

theorem rtMembers : ∀ (kv : String × Json) (ms : List (String × Json)) (ind n fl : Nat)
    (rest : List Char),
    intNums kv.2 = true → intNumsMembers ms = true →
    (printMember ind kv).length + (printMembersRest ind ms).length + 1 < fl →
    parseMembersNE fl (printMember ind kv
        ++ (printMembersRest ind ms ++ (nlC :: (sp n ++ rbraceC :: rest))))
      = some (kv :: ms, rest)
  | (k, v), ms, ind, n, fl, rest, hv0, hms, hf => by
    obtain ⟨f, rfl⟩ : ∃ f, fl = f + 1 := ⟨fl - 1, by omega⟩
    have hpm : (printMember ind (k, v)).length
        = (qencode k.data).length + (printV ind v).length + 4 := by
      simp [printMember]
      omega
    have harg : printMember ind (k, v)
        ++ (printMembersRest ind ms ++ (nlC :: (sp n ++ rbraceC :: rest)))
        = qmarkC :: (qencode k.data ++ qmarkC :: (colonC :: (spaceC :: (printV ind v
            ++ (printMembersRest ind ms ++ (nlC :: (sp n ++ rbraceC :: rest))))))) := by
      show (qmarkC :: (qencode k.data ++ qmarkC :: colonC :: spaceC :: printV ind v))
        ++ (printMembersRest ind ms ++ (nlC :: (sp n ++ rbraceC :: rest))) = _
      simp
    rw [harg]
    have hdelim : numBoundary (printMembersRest ind ms
        ++ (nlC :: (sp n ++ rbraceC :: rest))) = true := by
      cases ms with
      | nil => simpa [printMembersRest] using numDelim_nl (sp n ++ rbraceC :: rest)
      | cons m2 ms2 =>
        simpa [printMembersRest] using
          numDelim_comma (nlC :: (sp ind ++ printMember ind m2 ++ printMembersRest ind ms2)
            ++ (nlC :: (sp n ++ rbraceC :: rest)))
    have hsq : ∀ cs : List Char, skipWs (qmarkC :: cs) = qmarkC :: cs :=
      fun cs => skipWs_not_ws (by decide) cs
    have hscl : ∀ cs : List Char, skipWs (colonC :: cs) = colonC :: cs :=
      fun cs => skipWs_not_ws (by decide) cs
    have hv2 : parseValue f (spaceC :: (printV ind v
        ++ (printMembersRest ind ms ++ (nlC :: (sp n ++ rbraceC :: rest)))))
        = some (v, printMembersRest ind ms ++ (nlC :: (sp n ++ rbraceC :: rest))) := by
      rw [parseValue_congr_ws (skipWs_space _) f]
      exact rtValue v ind f
        (printMembersRest ind ms ++ (nlC :: (sp n ++ rbraceC :: rest))) hv0 (by omega) hdelim
    simp only [parseMembersNE, hsq, parseStringBody_qencode, hscl, hv2,
      eq_self_iff_true, if_true]
    cases ms with
    | nil =>
      have hsk : skipWs (printMembersRest ind ([] : List (String × Json))
          ++ (nlC :: (sp n ++ rbraceC :: rest))) = rbraceC :: rest := by
        simp only [printMembersRest, List.nil_append]
        rw [skipWs_nl_sp, skipWs_not_ws (by decide)]
      rw [hsk]
      simp +decide
    | cons m2 ms2 =>
      have hm2 : intNums m2.2 = true ∧ intNumsMembers ms2 = true := by
        simpa [intNumsMembers] using hms
      have hsk : skipWs (printMembersRest ind (m2 :: ms2)
          ++ (nlC :: (sp n ++ rbraceC :: rest)))
          = commaC :: (nlC :: ((sp ind ++ printMember ind m2 ++ printMembersRest ind ms2)
              ++ (nlC :: (sp n ++ rbraceC :: rest)))) := by
        simp only [printMembersRest, List.cons_append]
        rw [skipWs_not_ws (by decide)]
      rw [hsk]
      have hws2 : skipWs (nlC :: (sp ind ++ (printMember ind m2
          ++ (printMembersRest ind ms2 ++ nlC :: (sp n ++ rbraceC :: rest)))))
          = skipWs (printMember ind m2
              ++ (printMembersRest ind ms2 ++ nlC :: (sp n ++ rbraceC :: rest))) := by
        rw [skipWs_nl_sp]
      have hlen2 : (printMembersRest ind (m2 :: ms2)).length
          = (printMember ind m2).length + (printMembersRest ind ms2).length + ind + 2 := by
        simp [printMembersRest, sp]
        omega
      have hrec := rtMembers m2 ms2 ind n f rest hm2.1 hm2.2 (by omega)
      simp +decide [parseMembersNE_congr_ws hws2 f, hrec]
termination_by kv ms _ _ _ _ _ _ _ => sizeOf (kv :: ms)

end

/-! ### Assembling the document round-trip -/

theorem intNums_sceneJson (s : Scene) : intNums (sceneJson s) = true := by
  simp [sceneJson, intNums, intNumsMembers, Rat.den_intCast]

theorem intNumsList_scenes (l : List Scene) : intNumsList (l.map sceneJson) = true := by
  induction l with
  | nil => rfl
  | cons s t ih => simp [intNumsList, intNums_sceneJson, ih]

theorem parseJson_stringify (l : List Scene) :
    parseJson (stringifyScenes l) = some (.arr (l.map sceneJson)) := by
  have hnum : intNums (.arr (l.map sceneJson)) = true := by
    simp only [intNums]
    exact intNumsList_scenes l
  have hrt := rtValue (.arr (l.map sceneJson)) 0
    (3 * (printV 0 (Json.arr (l.map sceneJson))).length + 3) [] hnum (by omega) rfl
  rw [List.append_nil] at hrt
  show (match parseValue (3 * (printV 0 (Json.arr (l.map sceneJson))).length + 3)
      (printV 0 (Json.arr (l.map sceneJson))) with
    | some (v, rest) => if skipWs rest = [] then some v else none
    | none => none) = _
  rw [hrt]
  rfl

theorem jsonToScene_sceneJson (s : Scene) : jsonToScene (sceneJson s) = some s := by
  simp [sceneJson, jsonToScene, ratToInt, Rat.den_intCast, Rat.num_intCast]

theorem scenesFromList_map (l : List Scene) : scenesFromList (l.map sceneJson) = some l := by
  induction l with
  | nil => rfl
  | cons s t ih => simp [scenesFromList, jsonToScene_sceneJson, ih]

/-- C8: for every scene list, serializing it to the exported JSON document
(`JSON.stringify(scenes, null, 2)`: pretty-printed with 2-space indent) and
parsing that document back yields a scene list equal to the original. -/
theorem C8_export_roundtrip (l : List Scene) : decodeDoc (stringifyScenes l) = some l := by
  simp only [decodeDoc, parseJson_stringify l, jsonToScenes]
  exact scenesFromList_map l
